import Mathlib

/-!
Verification of the task-manager TUI core (final iteration of the Go sources).

The Go program is shallowly embedded: slices become `List`, `time.Time`
modification stamps become `Int` (with `After` as strict `<` on the stamp),
`string` becomes `String` (lowercasing via `Char.toLower`, which agrees with
Go's `strings.ToLower` on ASCII), and every file-system or environment access
performed by the state machine is threaded through an explicit `World` oracle
so that `Update` and friends are pure functions of the oracle, the state and
the incoming message.
-/

namespace Taskman

/-- TaskMetadata mirrors the frontmatter fields of `frontmatter.go`
(`Title`, `Status`, `Priority`, `DueDate`, `Tags`, `Created`); the two
timestamps are embedded as integers. -/
structure TaskMetadata where
  title : String
  status : String
  priority : String
  dueDate : Int
  tags : List String
  created : Int
deriving Repr, DecidableEq

/-- taskFile mirrors the Go struct `taskFile`: filename, modification time,
absolute path, originating (unexpanded) directory, parsed metadata. -/
structure taskFile where
  name : String
  modTime : Int
  fullPath : String
  sourceDir : String
  metadata : TaskMetadata
deriving Repr, DecidableEq

/-- viewMode mirrors the Go enumeration of the five view modes. -/
inductive viewMode where
  | listMode
  | taskViewMode
  | confirmDeleteMode
  | searchMode
  | helpMode
deriving Repr, DecidableEq

/-- model mirrors the Go `model` struct (the presentation-only fields
`showDirInfo` and `config` are omitted: no transition reads or writes them).
The Go `cursor` is an `int` that the program never drives below zero, so it
is embedded as a `Nat`; `err` is the optional last error, kept as the
rendered message text. -/
structure model where
  tasks : List taskFile
  filteredTasks : List taskFile
  cursor : Nat
  err : Option String
  configDirs : List String
  mode : viewMode
  taskContent : String
  searchQuery : String
deriving Repr, DecidableEq

/-- visibleTasks mirrors `model.visibleTasks` in the Go source. -/
def model.visibleTasks (m : model) : List taskFile :=
  if m.mode = viewMode.searchMode ∧ m.filteredTasks.length > 0 then
    m.filteredTasks
  else if m.mode = viewMode.searchMode ∧ m.searchQuery ≠ ("") then
    []
  else
    m.tasks

/-- lowerStr models `strings.ToLower` composed with viewing a Go string as a
character sequence (`Char.toLower` agrees with Go on ASCII input). -/
def lowerStr (s : String) : List Char :=
  s.data.map Char.toLower

/-- startsWithChars nee hay decides whether `nee` is a leading segment of
`hay`; auxiliary to the substring test below. -/
def startsWithChars : List Char → List Char → Bool
  | [], _ => true
  | _ :: _, [] => false
  | n :: ns, h :: hs => n = h && startsWithChars ns hs

/-- hasSubChars nee hay models Go's `strings.Contains hay nee`: `nee` occurs
contiguously somewhere inside `hay`. -/
def hasSubChars (nee : List Char) : List Char → Bool
  | [] => startsWithChars nee []
  | c :: rest => startsWithChars nee (c :: rest) || hasSubChars nee rest

/-- containsLower s q models `strings.Contains(strings.ToLower(s), query)`
where `query` is already lowercased, as in `filterTasks` of the Go source. -/
def containsLower (s : String) (q : List Char) : Bool :=
  hasSubChars q (lowerStr s)

/-- taskMatches q t is the disjunction of the four field tests performed by
the loop body of the Go `filterTasks` (filename, title, status, any tag). -/
def taskMatches (q : List Char) (t : taskFile) : Bool :=
  containsLower t.name q || containsLower t.metadata.title q ||
    containsLower t.metadata.status q ||
    t.metadata.tags.any (fun tag => containsLower tag q)

/-- filterLoop mirrors the `for _, task := range m.tasks` loop of the Go
`filterTasks`, with its cascade of checks each followed by
`append` + `continue` and the tag loop with `break`. -/
def filterLoop (q : List Char) : List taskFile → List taskFile
  | [] => []
  | t :: rest =>
    if containsLower t.name q then t :: filterLoop q rest
    else if containsLower t.metadata.title q then t :: filterLoop q rest
    else if containsLower t.metadata.status q then t :: filterLoop q rest
    else if t.metadata.tags.any (fun tag => containsLower tag q) then
      t :: filterLoop q rest
    else filterLoop q rest

/-- filterTasks mirrors the Go method `(m *model) filterTasks`: identity on
an empty query (with no cursor adjustment), otherwise the filtering loop on
the lowercased query followed by the cursor out-of-bounds reset. -/
def model.filterTasks (m : model) : model :=
  if m.searchQuery = ("") then
    { m with filteredTasks := m.tasks }
  else if m.cursor ≥ (filterLoop (lowerStr m.searchQuery) m.tasks).length then
    { m with filteredTasks := filterLoop (lowerStr m.searchQuery) m.tasks,
             cursor := 0 }
  else
    { m with filteredTasks := filterLoop (lowerStr m.searchQuery) m.tasks }

/-- DirLoader abstracts `loadTasksFromDirectory`: for each configured
directory it either produces the directory's task records or fails with an
error message (directory unreadable / home-dir resolution failure). -/
def DirLoader : Type := String → Except String (List taskFile)

/-- collectTasks is the success-accumulating part of the loop in
`loadTasksFromDirectories`: tasks of succeeding directories concatenated in
directory order (a failing directory contributes nothing). -/
def collectTasks (load : DirLoader) (dirs : List String) : List taskFile :=
  (dirs.map (fun d =>
    match load d with
    | Except.ok ts => ts
    | Except.error _ => [])).flatten

/-- collectErrs is the error-accumulating part of the same loop: the
formatted message `dir: err` for each failing directory, in order. -/
def collectErrs (load : DirLoader) (dirs : List String) : List String :=
  (dirs.map (fun d =>
    match load d with
    | Except.ok _ => []
    | Except.error e => [d ++ (": ") ++ e])).flatten

/-- sortByModTime models the `sort.Slice` call keyed on
`modTime.After` (newest first), rendered as the insertion sort on the
reflexive order `b.modTime ≤ a.modTime`.  Go's `sort.Slice` runs plain
insertion sort on slices shorter than 12 elements, and on such inputs the
two coincide element for element (an element is moved left exactly past the
strictly older ones); on longer slices Go's algorithm is an unstable
pdqsort, so only the sortedness, length and multiset of the model - not the
order among equal modification times - carry over to the program there.  No
theorem below depends on the model's tie order except at concrete inputs of
length at most two. -/
def sortByModTime (l : List taskFile) : List taskFile :=
  l.insertionSort (fun a b => b.modTime ≤ a.modTime)

/-- LoadResult is the outcome of `loadTasksFromDirectories`: either the
merged sorted records together with the non-fatal per-directory warnings
written to stderr, or a single fatal error. -/
inductive LoadResult where
  | ok (tasks : List taskFile) (warnings : List String)
  | err (msg : String)
deriving Repr, DecidableEq

/-- loadTasksFromDirectories mirrors the Go function of the same name:
accumulate per-directory successes and errors, sort the merged slice by
modification time (newest first), fail with the first error when there were
errors and no tasks at all, and otherwise succeed, surfacing the collected
errors as warnings (the Go code prints them to stderr exactly when the
error list is non-empty, which on the success path implies the task list is
non-empty). -/
def loadTasksFromDirectories (load : DirLoader) (dirs : List String) :
    LoadResult :=
  if collectErrs load dirs ≠ [] ∧
      sortByModTime (collectTasks load dirs) = [] then
    LoadResult.err (("couldn't read any directories: ") ++
      (collectErrs load dirs).headD (""))
  else
    LoadResult.ok (sortByModTime (collectTasks load dirs))
      (collectErrs load dirs)

/-- Cmd models the `tea.Cmd` values the Go update loop can schedule: quit
the program, or run the external editor on a path (whose completion
callback emits `reloadTasksMsg`). -/
inductive Cmd where
  | quit
  | execEdit (path : String)
deriving Repr, DecidableEq

/-- Msg models the two message kinds the Go `Update` handles:
`reloadTasksMsg` and `tea.KeyMsg` (identified by its `String()` form). -/
inductive Msg where
  | reloadTasks
  | key (k : String)
deriving Repr, DecidableEq

/-- World packages every effectful primitive the Go state machine calls, so
its transitions become pure functions: `load` is `loadTasksFromDirectory`,
`readFile` is `os.ReadFile`, `remove` is `os.Remove` (`none` = success,
`some e` = failure `e`), `resolve` is `expandPath` (`none` = home-directory
resolution failure), `writeOk` is the success of `os.WriteFile` at a path,
and `newFilename` is the timestamp-generated name `task-....md` used by
`createTask`. -/
structure World where
  load : DirLoader
  readFile : String → Except String String
  remove : String → Option String
  resolve : String → Option String
  writeOk : String → Bool
  newFilename : String

/-- pathJoin models `filepath.Join` for the two-component uses in the
source. -/
def pathJoin (a b : String) : String :=
  a ++ ("/") ++ b

/-- initialModel mirrors the Go `initialModel` on the path where the
configuration loads successfully and supplies `dirs` (the config-failure
fallback branch is not exercised by any claim): load all directories, start
in list mode with the cursor at the top. -/
def initialModel (w : World) (dirs : List String) : model :=
  match loadTasksFromDirectories w.load dirs with
  | LoadResult.err e =>
    { tasks := [], filteredTasks := [], cursor := 0, err := some e,
      configDirs := dirs, mode := viewMode.listMode, taskContent := (""),
      searchQuery := ("") }
  | LoadResult.ok ts _ =>
    { tasks := ts, filteredTasks := [], cursor := 0, err := none,
      configDirs := dirs, mode := viewMode.listMode, taskContent := (""),
      searchQuery := ("") }

/-- editTask mirrors the Go `(m model) editTask`: run the editor on
`m.tasks[m.cursor].fullPath`.  The Go code indexes unconditionally and would
panic out of range; that impossible-to-return branch is rendered as
`none`. -/
def editTask (m : model) : Option Cmd :=
  (m.tasks[m.cursor]?).map (fun t => Cmd.execEdit t.fullPath)

/-- createTask mirrors the Go `(m model) createTask`: resolve the first
configured directory, write the template to the timestamp-named file, open
the editor on it; either failure abandons the effect by returning no
command (the Go code would panic on an empty directory list, also rendered
as `none`; the configuration contract rules that case out). -/
def createTask (w : World) (m : model) : Option Cmd :=
  match m.configDirs with
  | [] => none
  | d :: _ =>
    match w.resolve d with
    | none => none
    | some firstDir =>
      let taskPath := pathJoin firstDir w.newFilename
      if w.writeOk taskPath then some (Cmd.execEdit taskPath) else none

/-- deleteTask mirrors the Go `(m model) deleteTask`: remove the file at
`m.tasks[m.cursor].fullPath`; on failure record the error and return to
list mode without touching the master list; on success splice the record
out, pull the cursor back when it fell off the end, return to list mode and
clear the content buffer.  (The Go code would panic on an out-of-range
cursor; that branch is rendered as the identity.) -/
def deleteTask (w : World) (m : model) : model :=
  match m.tasks[m.cursor]? with
  | none => m
  | some t =>
    match w.remove t.fullPath with
    | some e =>
      { m with err := some (("failed to delete task: ") ++ e),
               mode := viewMode.listMode }
    | none =>
      { m with
        tasks := m.tasks.take m.cursor ++ m.tasks.drop (m.cursor + 1),
        cursor :=
          if m.cursor ≥ (m.tasks.take m.cursor ++
              m.tasks.drop (m.cursor + 1)).length ∧ m.cursor > 0 then
            m.cursor - 1
          else m.cursor,
        mode := viewMode.listMode, taskContent := ("") }

/-- readTaskIntoView is the body shared by the two `enter` branches of the
Go `Update`: read the file of `visibleTasks[cursor]` (guarded by the bounds
check), recording a read failure in `err` and otherwise switching to the
task view with the content loaded. -/
def readTaskIntoView (w : World) (m : model) : model :=
  match m.visibleTasks[m.cursor]? with
  | none => m
  | some t =>
    match w.readFile t.fullPath with
    | Except.error e =>
      { m with err := some (("failed to read task: ") ++ e) }
    | Except.ok content =>
      { m with mode := viewMode.taskViewMode, taskContent := content }

/-- update mirrors the Go `Update` method message for message and switch
case for switch case (the Go switch cases are disjoint string sets, so the
if-cascade order here is immaterial).  The returned `Option Cmd` is the
scheduled command, `none` standing for Go's `nil`. -/
def update (w : World) (m : model) (msg : Msg) : model × Option Cmd :=
  match msg with
  | Msg.reloadTasks =>
    (match loadTasksFromDirectories w.load m.configDirs with
     | LoadResult.err e =>
       { m with tasks := [], err := some e, mode := viewMode.listMode,
                taskContent := (""), cursor := 0 }
     | LoadResult.ok ts _ =>
       { m with tasks := ts, err := none, mode := viewMode.listMode,
                taskContent := (""), cursor := 0 }, none)
  | Msg.key k =>
    if k = ("q") ∨ k = ("ctrl+c") then
      (m, some Cmd.quit)
    else if k = ("esc") then
      (if m.mode = viewMode.taskViewMode then
         { m with mode := viewMode.listMode, taskContent := ("") }
       else if m.mode = viewMode.confirmDeleteMode then
         { m with mode := viewMode.taskViewMode }
       else if m.mode = viewMode.searchMode then
         { m with mode := viewMode.listMode, searchQuery := (""),
                  filteredTasks := [], cursor := 0 }
       else if m.mode = viewMode.helpMode then
         { m with mode := viewMode.listMode }
       else m, none)
    else if k = ("?") ∨ k = ("h") then
      (if m.mode = viewMode.listMode ∨ m.mode = viewMode.searchMode then
         { m with mode := viewMode.helpMode }
       else m, none)
    else if k = ("enter") then
      (if m.mode = viewMode.listMode ∧ m.tasks.length > 0 then
         readTaskIntoView w m
       else if m.mode = viewMode.searchMode ∧ m.visibleTasks.length > 0 then
         readTaskIntoView w m
       else m, none)
    else if k = ("e") then
      if m.mode = viewMode.taskViewMode ∧ m.tasks.length > 0 then
        (m, editTask m)
      else (m, none)
    else if k = ("n") then
      if m.mode = viewMode.listMode then
        (m, createTask w m)
      else if m.mode = viewMode.confirmDeleteMode then
        ({ m with mode := viewMode.taskViewMode }, none)
      else (m, none)
    else if k = ("d") then
      (if m.mode = viewMode.taskViewMode ∧ m.tasks.length > 0 then
         { m with mode := viewMode.confirmDeleteMode }
       else m, none)
    else if k = ("y") then
      if m.mode = viewMode.confirmDeleteMode ∧ m.tasks.length > 0 then
        (deleteTask w m, none)
      else (m, none)
    else if k = ("/") then
      (if m.mode = viewMode.listMode then
         { m with mode := viewMode.searchMode, searchQuery := (""),
                  cursor := 0 }
       else m, none)
    else if k = ("backspace") then
      (if m.mode = viewMode.searchMode ∧ m.searchQuery.length > 0 then
         model.filterTasks
           { m with searchQuery := String.mk m.searchQuery.data.dropLast }
       else m, none)
    else if k = ("up") ∨ k = ("k") then
      (if (m.mode = viewMode.listMode ∨ m.mode = viewMode.searchMode) ∧
          m.cursor > 0 then
         { m with cursor := m.cursor - 1 }
       else m, none)
    else if k = ("down") ∨ k = ("j") then
      (if (m.mode = viewMode.listMode ∨ m.mode = viewMode.searchMode) ∧
          m.cursor + 1 < m.visibleTasks.length then
         { m with cursor := m.cursor + 1 }
       else m, none)
    else
      (if m.mode = viewMode.searchMode ∧ k.length = 1 then
         model.filterTasks { m with searchQuery := m.searchQuery ++ k }
       else m, none)

/-- Reachable states: any initial model (for any oracle and directory
list), closed under one `update` step with an arbitrary oracle (the file
system may change between steps). -/
inductive Reachable : model → Prop where
  | init (w : World) (dirs : List String) : Reachable (initialModel w dirs)
  | step (w : World) (m : model) (msg : Msg) :
      Reachable m → Reachable (update w m msg).1

/-- runKeys folds a message sequence through `update` with a fixed oracle,
keeping only the state. -/
def runKeys (w : World) (m : model) (msgs : List Msg) : model :=
  msgs.foldl (fun s g => (update w s g).1) m

theorem reachable_runKeys (w : World) (msgs : List Msg) (m : model)
    (h : Reachable m) : Reachable (runKeys w m msgs) := by
  induction msgs generalizing m with
  | nil => exact h
  | cons g gs ih => exact ih _ (Reachable.step w m g h)

/-! Helper lemmas about the embedded operations. -/

instance : IsTotal taskFile (fun a b => b.modTime ≤ a.modTime) :=
  ⟨fun a b => le_total b.modTime a.modTime⟩

instance : IsTrans taskFile (fun a b => b.modTime ≤ a.modTime) :=
  ⟨fun _ _ _ h1 h2 => le_trans h2 h1⟩

theorem sortByModTime_perm (l : List taskFile) :
    List.Perm (sortByModTime l) l :=
  List.perm_insertionSort _ l

theorem sortByModTime_sorted (l : List taskFile) :
    List.Sorted (fun a b => b.modTime ≤ a.modTime) (sortByModTime l) :=
  List.sorted_insertionSort _ l

theorem mem_sortByModTime {t : taskFile} {l : List taskFile} :
    t ∈ sortByModTime l ↔ t ∈ l :=
  (sortByModTime_perm l).mem_iff

theorem filterLoop_eq_filter (q : List Char) (l : List taskFile) :
    filterLoop q l = l.filter (fun t => taskMatches q t) := by
  induction l with
  | nil => rfl
  | cons t rest ih =>
    have hstep : filterLoop q (t :: rest) =
        if taskMatches q t then t :: filterLoop q rest
        else filterLoop q rest := by
      simp only [filterLoop, taskMatches]
      by_cases h1 : containsLower t.name q = true <;>
        by_cases h2 : containsLower t.metadata.title q = true <;>
          by_cases h3 : containsLower t.metadata.status q = true <;>
            by_cases h4 :
                (t.metadata.tags.any fun tag => containsLower tag q) = true <;>
              simp [h1, h2, h3, h4]
    rw [hstep, List.filter_cons, ih]

theorem count_filter_or_zero {α : Type} [DecidableEq α] (p : α → Bool)
    (l : List α) (a : α) :
    (l.filter p).count a = if p a then l.count a else 0 := by
  induction l with
  | nil => simp
  | cons x xs ih =>
    rw [List.filter_cons]
    by_cases hax : x = a
    · subst hax
      by_cases hp : p x = true
      · simp [List.count_cons, hp, ih]
      · rw [Bool.not_eq_true] at hp
        simp [hp, ih]
    · by_cases hp : p x = true
      · simp [List.count_cons, hp, hax, ih]
      · rw [Bool.not_eq_true] at hp
        simp [hp, List.count_cons, hax, ih]

theorem eq_take_cons_drop {α : Type} (l : List α) (n : Nat) (a : α)
    (h : l[n]? = some a) :
    l = l.take n ++ a :: l.drop (n + 1) := by
  induction l generalizing n with
  | nil => simp at h
  | cons x xs ih =>
    cases n with
    | zero => simp_all
    | succ k =>
      simp only [List.getElem?_cons_succ] at h
      simpa using ih k h

theorem filterTasks_mode (m : model) :
    (model.filterTasks m).mode = m.mode := by
  unfold model.filterTasks
  split
  · rfl
  · split <;> rfl

theorem filterTasks_searchQuery (m : model) :
    (model.filterTasks m).searchQuery = m.searchQuery := by
  unfold model.filterTasks
  split
  · rfl
  · split <;> rfl

theorem filterTasks_filtered_eq (m : model) (hq : m.searchQuery ≠ ("")) :
    (model.filterTasks m).filteredTasks =
      filterLoop (lowerStr m.searchQuery) m.tasks := by
  unfold model.filterTasks
  split
  · exact absurd ‹_› hq
  · split <;> rfl

theorem mem_collectTasks (load : DirLoader) (dirs : List String)
    (d : String) (ts : List taskFile) (hd : d ∈ dirs)
    (hl : load d = Except.ok ts) : ∀ t ∈ ts, t ∈ collectTasks load dirs := by
  intro t ht
  simp only [collectTasks, List.mem_flatten, List.mem_map]
  exact ⟨ts, ⟨d, hd, by rw [hl]⟩, ht⟩

theorem collectTasks_nil_of_all_fail (load : DirLoader) (dirs : List String)
    (h : ∀ d ∈ dirs, ∃ e, load d = Except.error e) :
    collectTasks load dirs = [] := by
  induction dirs with
  | nil => rfl
  | cons d ds ih =>
    obtain ⟨e, he⟩ := h d (by simp)
    simp only [collectTasks, List.map_cons, List.flatten_cons, he]
    simpa [collectTasks] using ih (fun x hx => h x (by simp [hx]))

theorem collectErrs_ne_nil_of_head_fail (load : DirLoader) (d : String)
    (ds : List String) (e : String) (he : load d = Except.error e) :
    collectErrs load (d :: ds) ≠ [] := by
  simp [collectErrs, he]

theorem collectTasks_perm (load : DirLoader) {dirs dirs' : List String}
    (h : List.Perm dirs dirs') :
    List.Perm (collectTasks load dirs) (collectTasks load dirs') :=
  (h.map _).flatten

/-! Claims: fixtures, theorems, witnesses and counterexamples. -/


/-! Concrete fixtures used by witnesses and counterexamples. -/

def metaEmpty : TaskMetadata :=
  { title := (""), status := (""), priority := (""), dueDate := 0,
    tags := [], created := 0 }

def alphaT : taskFile :=
  { name := ("alpha.md"), modTime := 2, fullPath := ("/t/alpha.md"),
    sourceDir := ("~/t"), metadata := metaEmpty }

def betaT : taskFile :=
  { name := ("beta.md"), modTime := 1, fullPath := ("/t/beta.md"),
    sourceDir := ("~/t"), metadata := metaEmpty }

def w1 : World :=
  { load := fun _ => Except.ok [alphaT, betaT]
    readFile := fun p => Except.ok p
    remove := fun _ => none
    resolve := fun _ => none
    writeOk := fun _ => false
    newFilename := ("task-x.md") }

def m0 : model := initialModel w1 [("~/t")]

def cload1 : DirLoader := fun d =>
  if d = ("d1") then Except.ok [] else Except.error ("boom")

def cloadW1 : DirLoader := fun d =>
  if d = ("d1") then Except.ok [alphaT] else Except.error ("boom")

/-- C1 counterexample: with directory d1 succeeding (with zero task files)
and d2 failing, at least one directory loads successfully, yet the
aggregate operation returns an error — refuting the claimed equivalence
between failure and all directories failing. -/
theorem C1_counterexample_empty_success :
    cload1 ("d1") = Except.ok [] ∧
    loadTasksFromDirectories cload1 [("d1"), ("d2")] =
      LoadResult.err ("couldn't read any directories: d2: boom") := by
  constructor
  · rfl
  · rfl

/-- C1 (amended): the aggregator returns the merged sorted sequence with
the per-directory failures as non-fatal warnings whenever at least one
directory succeeds with at least one record; it returns an error naming the
first failure whenever every directory fails; and on any successful outcome
no record of a succeeding directory is dropped. -/
theorem C1_aggregator_partial_failure (load : DirLoader)
    (dirs : List String) :
    ((∃ d ∈ dirs, ∃ ts, load d = Except.ok ts ∧ ts ≠ []) →
      loadTasksFromDirectories load dirs =
        LoadResult.ok (sortByModTime (collectTasks load dirs))
          (collectErrs load dirs)) ∧
    ((dirs ≠ [] ∧ ∀ d ∈ dirs, ∃ e, load d = Except.error e) →
      loadTasksFromDirectories load dirs =
        LoadResult.err (("couldn't read any directories: ") ++
          (collectErrs load dirs).headD (""))) ∧
    (∀ res ws, loadTasksFromDirectories load dirs = LoadResult.ok res ws →
      ∀ d ∈ dirs, ∀ ts, load d = Except.ok ts → ∀ t ∈ ts, t ∈ res) := by
  refine ⟨?_, ?_, ?_⟩
  · rintro ⟨d, hd, ts, hts, htsne⟩
    obtain ⟨t, ht⟩ := List.exists_mem_of_ne_nil ts htsne
    have hmem : t ∈ collectTasks load dirs :=
      mem_collectTasks load dirs d ts hd hts t ht
    have hne : sortByModTime (collectTasks load dirs) ≠ [] :=
      List.ne_nil_of_mem (mem_sortByModTime.mpr hmem)
    simp [loadTasksFromDirectories, hne]
  · rintro ⟨hdne, hall⟩
    have hct : collectTasks load dirs = [] :=
      collectTasks_nil_of_all_fail load dirs hall
    have hce : collectErrs load dirs ≠ [] := by
      cases dirs with
      | nil => simp at hdne
      | cons d ds =>
        obtain ⟨e, he⟩ := hall d (by simp)
        exact collectErrs_ne_nil_of_head_fail load d ds e he
    simp [loadTasksFromDirectories, hct, hce, sortByModTime,
      List.insertionSort]
  · intro res ws hres d hd ts hts t ht
    by_cases hc : collectErrs load dirs ≠ [] ∧
        sortByModTime (collectTasks load dirs) = []
    · simp [loadTasksFromDirectories, hc] at hres
    · simp [loadTasksFromDirectories, hc] at hres
      rw [← hres.1]
      exact mem_sortByModTime.mpr (mem_collectTasks load dirs d ts hd hts t ht)

/-- C1 witness: the amended theorem applied to the loader where d1 succeeds
with one record and d2 fails. -/
theorem C1_aggregator_partial_failure_witness :
    loadTasksFromDirectories cloadW1 [("d1"), ("d2")] =
      LoadResult.ok (sortByModTime (collectTasks cloadW1 [("d1"), ("d2")]))
        (collectErrs cloadW1 [("d1"), ("d2")]) :=
  (C1_aggregator_partial_failure cloadW1 [("d1"), ("d2")]).1
    ⟨("d1"), by decide, [alphaT], rfl, by decide⟩

def xT : taskFile :=
  { name := ("x.md"), modTime := 5, fullPath := ("/a/x.md"),
    sourceDir := ("dA"), metadata := metaEmpty }

def yT : taskFile :=
  { name := ("y.md"), modTime := 5, fullPath := ("/b/y.md"),
    sourceDir := ("dB"), metadata := metaEmpty }

def cload4 : DirLoader := fun d =>
  if d = ("d1") then Except.ok [xT] else Except.ok [yT]

/-- C4 counterexample: two directories holding one record each, with equal
modification times: permuting the directory list permutes the merged
output, refuting order-of-directories independence. -/
theorem C4_counterexample_tie_order :
    List.Perm [("d1"), ("d2")] [("d2"), ("d1")] ∧
    loadTasksFromDirectories cload4 [("d1"), ("d2")] =
      LoadResult.ok [xT, yT] [] ∧
    loadTasksFromDirectories cload4 [("d2"), ("d1")] =
      LoadResult.ok [yT, xT] [] ∧
    loadTasksFromDirectories cload4 [("d1"), ("d2")] ≠
      loadTasksFromDirectories cload4 [("d2"), ("d1")] := by
  refine ⟨List.Perm.swap ("d2") ("d1") [], rfl, rfl, by decide⟩

/-- C4 (amended): for a fixed input the merged output is a deterministic
sequence sorted by modification time descending, and permuting the input
directory list yields a permutation of the same records (still sorted
descending); but the output sequence itself is not invariant under
permutation of the directory list: the order among records with equal
modification times can depend on the order the directories are given, as
the two-directory counterexample shows. -/
theorem C4_sort_order_determinism (load : DirLoader)
    (dirs dirs' : List String) (ts ts' : List taskFile)
    (ws ws' : List String) (hp : List.Perm dirs dirs')
    (h : loadTasksFromDirectories load dirs = LoadResult.ok ts ws)
    (h' : loadTasksFromDirectories load dirs' = LoadResult.ok ts' ws') :
    List.Sorted (fun a b => b.modTime ≤ a.modTime) ts ∧ List.Perm ts ts' := by
  have hts : ts = sortByModTime (collectTasks load dirs) := by
    by_cases hc : collectErrs load dirs ≠ [] ∧
        sortByModTime (collectTasks load dirs) = []
    · simp [loadTasksFromDirectories, hc] at h
    · simp [loadTasksFromDirectories, hc] at h
      exact h.1.symm
  have hts' : ts' = sortByModTime (collectTasks load dirs') := by
    by_cases hc : collectErrs load dirs' ≠ [] ∧
        sortByModTime (collectTasks load dirs') = []
    · simp [loadTasksFromDirectories, hc] at h'
    · simp [loadTasksFromDirectories, hc] at h'
      exact h'.1.symm
  subst hts
  subst hts'
  exact ⟨sortByModTime_sorted _,
    ((sortByModTime_perm _).trans (collectTasks_perm load hp)).trans
      (sortByModTime_perm _).symm⟩

/-- C4 witness: the amended theorem applied to the two-directory fixture
with a modification-time tie. -/
theorem C4_sort_order_determinism_witness :
    List.Sorted (fun a b => b.modTime ≤ a.modTime) [xT, yT] ∧
    List.Perm [xT, yT] [yT, xT] :=
  C4_sort_order_determinism cload4 [("d1"), ("d2")] [("d2"), ("d1")]
    [xT, yT] [yT, xT] [] [] (List.Perm.swap ("d2") ("d1") []) rfl rfl



/-- C5: the search filter is the identity on an empty query; on a non-empty
query it keeps exactly the records for which the lowercased query occurs in
the lowercased filename, title, status or some tag, each matching record
with its multiplicity from the master list (so never doubled by multiple
field matches) and each non-matching record absent. -/
theorem C5_search_filter_spec (m : model) :
    (m.searchQuery = ("") → (model.filterTasks m).filteredTasks = m.tasks) ∧
    (m.searchQuery ≠ ("") →
      (model.filterTasks m).filteredTasks =
        m.tasks.filter (fun t => taskMatches (lowerStr m.searchQuery) t)) ∧
    (m.searchQuery ≠ ("") → ∀ t : taskFile,
      (taskMatches (lowerStr m.searchQuery) t = true →
        (model.filterTasks m).filteredTasks.count t = m.tasks.count t) ∧
      (taskMatches (lowerStr m.searchQuery) t = false →
        (model.filterTasks m).filteredTasks.count t = 0)) := by
  have hfe : ∀ _ : m.searchQuery ≠ (""),
      (model.filterTasks m).filteredTasks =
        m.tasks.filter (fun t => taskMatches (lowerStr m.searchQuery) t) :=
    fun hq => (filterTasks_filtered_eq m hq).trans (filterLoop_eq_filter _ _)
  refine ⟨fun hq => ?_, hfe, fun hq t => ?_⟩
  · simp [model.filterTasks, hq]
  · rw [hfe hq]
    constructor
    · intro hm
      rw [count_filter_or_zero]
      simp [hm]
    · intro hm
      rw [count_filter_or_zero]
      simp [hm]

def urgT : taskFile :=
  { name := ("urgent-work.md"), modTime := 3, fullPath := ("/t/u.md"),
    sourceDir := ("~/t"),
    metadata := { title := ("Urgent thing"), status := ("todo"),
                  priority := (""), dueDate := 0,
                  tags := [("urgent")], created := 0 } }

def mC5 : model :=
  { tasks := [urgT, betaT], filteredTasks := [], cursor := 0, err := none,
    configDirs := [], mode := viewMode.searchMode, taskContent := (""),
    searchQuery := ("urgent") }

/-- C5 witness: `urgT` matches the query on filename, title and tag at
once yet appears exactly once; `betaT` matches nowhere and is excluded. -/
theorem C5_search_filter_spec_witness :
    (model.filterTasks mC5).filteredTasks.count urgT = mC5.tasks.count urgT ∧
    (model.filterTasks mC5).filteredTasks.count betaT = 0 :=
  ⟨((C5_search_filter_spec mC5).2.2 (by decide) urgT).1 (by decide),
   ((C5_search_filter_spec mC5).2.2 (by decide) betaT).2 (by decide)⟩

/-- C7: confirmed deletion. If removing the file succeeds, exactly the
referenced record is spliced out (everything before and after it is kept
unchanged, the length drops by one), the mode returns to List and the error
field is untouched; if removing fails, the error is recorded, the mode is
List and the master list (and the rest of the state) is not mutated. -/
theorem C7_delete_confirmed (w : World) (m : model) (t : taskFile)
    (h : m.tasks[m.cursor]? = some t) :
    (w.remove t.fullPath = none →
      (deleteTask w m).tasks =
          m.tasks.take m.cursor ++ m.tasks.drop (m.cursor + 1) ∧
      m.tasks = m.tasks.take m.cursor ++ t :: m.tasks.drop (m.cursor + 1) ∧
      (deleteTask w m).tasks.length + 1 = m.tasks.length ∧
      (deleteTask w m).mode = viewMode.listMode ∧
      (deleteTask w m).err = m.err) ∧
    (∀ e, w.remove t.fullPath = some e →
      (deleteTask w m).tasks = m.tasks ∧
      (deleteTask w m).mode = viewMode.listMode ∧
      (deleteTask w m).err = some (("failed to delete task: ") ++ e) ∧
      (deleteTask w m).filteredTasks = m.filteredTasks ∧
      (deleteTask w m).cursor = m.cursor) := by
  constructor
  · intro hr
    have hdec := eq_take_cons_drop m.tasks m.cursor t h
    have hlen : (m.tasks.take m.cursor ++
        m.tasks.drop (m.cursor + 1)).length + 1 = m.tasks.length := by
      have h2 := congrArg List.length hdec
      simp [List.length_append] at h2 ⊢
      omega
    refine ⟨?_, hdec, ?_, ?_, ?_⟩
    · simp [deleteTask, h, hr]
    · simp only [deleteTask, h, hr]
      simpa using hlen
    · simp [deleteTask, h, hr]
    · simp [deleteTask, h, hr]
  · intro e hr
    refine ⟨?_, ?_, ?_, ?_, ?_⟩ <;> simp [deleteTask, h, hr]

def wDel : World :=
  { load := fun _ => Except.ok []
    readFile := fun p => Except.ok p
    remove := fun _ => none
    resolve := fun _ => none
    writeOk := fun _ => false
    newFilename := ("t.md") }

def mDel : model :=
  { tasks := [alphaT, betaT], filteredTasks := [], cursor := 0, err := none,
    configDirs := [("~/t")], mode := viewMode.confirmDeleteMode,
    taskContent := (""), searchQuery := ("") }

/-- C7 witness: successful deletion of the first of two records. -/
theorem C7_delete_confirmed_witness :
    (deleteTask wDel mDel).tasks =
        mDel.tasks.take mDel.cursor ++ mDel.tasks.drop (mDel.cursor + 1) ∧
    mDel.tasks = mDel.tasks.take mDel.cursor ++ alphaT ::
        mDel.tasks.drop (mDel.cursor + 1) ∧
    (deleteTask wDel mDel).tasks.length + 1 = mDel.tasks.length ∧
    (deleteTask wDel mDel).mode = viewMode.listMode ∧
    (deleteTask wDel mDel).err = mDel.err :=
  (C7_delete_confirmed wDel mDel alphaT rfl).1 rfl



/-- handledKeys lists the `String()` forms matched by the named cases of
the key switch in `Update`; a key in this list never reaches the default
(search-typing) branch. -/
def handledKeys : List String :=
  [("q"), ("ctrl+c"), ("esc"), ("?"), ("h"), ("enter"), ("e"), ("n"),
   ("d"), ("y"), ("/"), ("backspace"), ("up"), ("k"), ("down"), ("j")]

def msgsS8 : List Msg := [Msg.key ("/")]

def mS8 : model := runKeys w1 m0 msgsS8

/-- C8 counterexample: in Search mode the printable key h does not append
to the query — it opens the Help screen instead. -/
theorem C8_counterexample_bound_key :
    mS8.mode = viewMode.searchMode ∧
    ¬ ((update w1 mS8 (Msg.key ("h"))).1.mode = viewMode.searchMode ∧
       (update w1 mS8 (Msg.key ("h"))).1.searchQuery =
         mS8.searchQuery ++ ("h")) := by
  constructor
  · rfl
  · decide

/-- C8 (amended): in Search mode a length-one key appends to the query and
recomputes the visible list (staying in Search mode) exactly when it is not
one of the specially handled keys; the handled keys keep their other
bindings (q quits, question mark and h open Help, k and j move the cursor,
and e, n, d, y, slash do nothing in Search mode). -/
theorem C8_search_typing (w : World) (m : model) (k : String)
    (h1 : m.mode = viewMode.searchMode) (h2 : k.length = 1)
    (h3 : k ∉ handledKeys) :
    update w m (Msg.key k) =
      (model.filterTasks { m with searchQuery := m.searchQuery ++ k },
        none) ∧
    (update w m (Msg.key k)).1.mode = viewMode.searchMode ∧
    (update w m (Msg.key k)).1.searchQuery = m.searchQuery ++ k := by
  simp only [handledKeys, List.mem_cons, not_or] at h3
  obtain ⟨n1, n2, n3, n4, n5, n6, n7, n8, n9, n10, n11, n12, n13, n14,
    n15, n16, -⟩ := h3
  have hstep : update w m (Msg.key k) =
      (model.filterTasks { m with searchQuery := m.searchQuery ++ k },
        none) := by
    simp [update, h1, h2, n1, n2, n3, n4, n5, n6, n7, n8, n9, n10, n11,
      n12, n13, n14, n15, n16]
  refine ⟨hstep, ?_, ?_⟩
  · rw [hstep]
    exact (filterTasks_mode _).trans h1
  · rw [hstep]
    exact filterTasks_searchQuery _

/-- C8 witness: the unbound key x typed in a reachable Search state. -/
theorem C8_search_typing_witness :
    update w1 mS8 (Msg.key ("x")) =
      (model.filterTasks { mS8 with searchQuery := mS8.searchQuery ++ ("x") },
        none) ∧
    (update w1 mS8 (Msg.key ("x"))).1.mode = viewMode.searchMode ∧
    (update w1 mS8 (Msg.key ("x"))).1.searchQuery =
      mS8.searchQuery ++ ("x") :=
  C8_search_typing w1 mS8 ("x") rfl rfl (by decide)

/-- C9: if resolving the first configured directory fails, or writing the
template file fails, the create effect is abandoned silently: no command is
scheduled (no editor, no reload) and the state — last error included — is
completely unchanged. -/
theorem C9_create_failure_silent (w : World) (m : model) (d : String)
    (ds : List String) (h1 : m.mode = viewMode.listMode)
    (h2 : m.configDirs = d :: ds)
    (h3 : w.resolve d = none ∨
      ∃ p, w.resolve d = some p ∧
        w.writeOk (pathJoin p w.newFilename) = false) :
    update w m (Msg.key ("n")) = (m, none) := by
  have hstep : update w m (Msg.key ("n")) = (m, createTask w m) := by
    simp [update, h1]
  have hnone : createTask w m = none := by
    rcases h3 with hres | ⟨p, hres, hw⟩
    · simp [createTask, h2, hres]
    · simp [createTask, h2, hres, hw]
  rw [hstep, hnone]

def mList : model :=
  { tasks := [alphaT, betaT], filteredTasks := [], cursor := 0, err := none,
    configDirs := [("~/t")], mode := viewMode.listMode, taskContent := (""),
    searchQuery := ("") }

/-- C9 witness: creating while home-directory resolution fails. -/
theorem C9_create_failure_silent_witness :
    update w1 mList (Msg.key ("n")) = (mList, none) :=
  C9_create_failure_silent w1 mList ("~/t") [] rfl rfl (Or.inl rfl)

/-- C10: pressing escape in Help mode always returns to List mode and
changes nothing else: every other field of the state is carried over
verbatim, in particular a search query typed before opening Help. -/
theorem C10_help_escape (w : World) (m : model)
    (h : m.mode = viewMode.helpMode) :
    update w m (Msg.key ("esc")) =
      ({ m with mode := viewMode.listMode }, none) := by
  simp [update, h]

def mHelp : model :=
  { tasks := [alphaT, betaT], filteredTasks := [betaT], cursor := 1,
    err := none, configDirs := [("~/t")], mode := viewMode.helpMode,
    taskContent := (""), searchQuery := ("beta") }

/-- C10 witness: escape from Help with a pending search query. -/
theorem C10_help_escape_witness :
    update w1 mHelp (Msg.key ("esc")) =
      ({ mHelp with mode := viewMode.listMode }, none) :=
  C10_help_escape w1 mHelp rfl

def msgsC2 : List Msg := [Msg.key ("/"), Msg.key ("b"), Msg.key ("enter")]

def mC2 : model := runKeys w1 m0 msgsC2

/-- C2: refutation on a reachable state. Entering TaskDetail from Search
results loads the content of the filtered list's record (beta), but the
edit command then launched targets `tasks[cursor]` of the master list
(alpha) — the mode does not snapshot the referenced record's path. -/
theorem C2_detail_reference_mismatch :
    Reachable mC2 ∧
    mC2.mode = viewMode.taskViewMode ∧
    mC2.taskContent = ("/t/beta.md") ∧
    (update w1 mC2 (Msg.key ("e"))).2 =
      some (Cmd.execEdit ("/t/alpha.md")) ∧
    betaT.fullPath ≠ alphaT.fullPath := by
  refine ⟨reachable_runKeys w1 msgsC2 m0 (Reachable.init w1 [("~/t")]),
    ?_, ?_, ?_, ?_⟩ <;> decide

def msgsC3 : List Msg :=
  [Msg.key ("/"), Msg.key ("a"), Msg.key ("enter"), Msg.key ("esc"),
   Msg.key ("enter"), Msg.key ("d"), Msg.key ("y"), Msg.key ("/"),
   Msg.key ("down"), Msg.key ("enter")]

def mC3 : model := runKeys w1 m0 msgsC3

/-- C3: refutation on a reachable state. After deleting a record while a
stale filtered list survives, re-entering Search resurrects the stale list;
selecting its last entry and viewing it leaves the cursor at 1 while the
visible (master) list has length 1 — the claimed cursor bound fails (and a
subsequent edit key would index the master list out of range). -/
theorem C3_cursor_invariant_violated :
    Reachable mC3 ∧
    ¬ (mC3.cursor < max 1 mC3.visibleTasks.length) :=
  ⟨reachable_runKeys w1 msgsC3 m0 (Reachable.init w1 [("~/t")]), by decide⟩

def msgsC6 : List Msg :=
  [Msg.key ("/"), Msg.key ("a"), Msg.key ("enter"), Msg.key ("esc"),
   Msg.key ("enter"), Msg.key ("d"), Msg.key ("y"), Msg.key ("/")]

def mC6 : model := runKeys w1 m0 msgsC6

/-- C6: refutation on a reachable state. A confirmed deletion removes alpha
from the master list but does not recompute the filtered list; after
re-entering Search, the visible list still contains the deleted record. -/
theorem C6_stale_filtered_after_delete :
    Reachable mC6 ∧
    alphaT ∉ mC6.tasks ∧
    alphaT ∈ mC6.filteredTasks ∧
    alphaT ∈ mC6.visibleTasks :=
  ⟨reachable_runKeys w1 msgsC6 m0 (Reachable.init w1 [("~/t")]),
   by decide, by decide, by decide⟩


end Taskman
